import Mathlib

/-! Shallow embedding of the DiyanetAwqatSalah Go client library
(package `diyanet`): the token acquisition / refresh lifecycle from
`auth.go`, and the Gregorian-date rewriting of prayer-time results
from `prayertime.go`.

Modelling conventions:
* A Go `time.Time` is modelled by its wall-clock reading as an `Int` of
  nanoseconds since the Go zero time (January 1, year 1, 00:00:00 UTC).
  `Round(0)` only strips the monotonic reading and is the identity here;
  `Add` is addition; `After`/`Before` are `>`/`<`.
* A Go `time.Duration` is an `Int` of nanoseconds.
* Byte slices are `List Nat` (each entry < 256; the JSON payloads the
  claims exercise are ASCII, so bytes are mapped to `Char` directly).
* Fallible Go calls return `Option`/`Except`.
-/

namespace Diyanet

/-- Nanoseconds per second (`time.Second`). -/
def nsPerSec : Int := 1000000000

/-- Seconds between the Go zero time (Jan 1, year 1) and the Unix epoch,
Go's internal `unixToInternal` constant:
`(1969*365 + 1969/4 - 1969/100 + 1969/400) * 86400`. -/
def unixToInternalSec : Int := 62135596800

/-- Model of `time.Unix(sec, 0)` as nanoseconds since the Go zero time. -/
def timeUnix (sec : Int) : Int := (unixToInternalSec + sec) * nsPerSec

/-- Model of `var earlyExpiry = 15 * time.Minute` (auth.go:23), in nanoseconds. -/
def earlyExpiry : Int := 15 * 60 * nsPerSec

/-- Model of `var past time.Time` after `init` runs `past = past.Add(earlyExpiry + 1)`
(auth.go:24-28): the zero time plus 15 minutes and one nanosecond. -/
def past : Int := 0 + (earlyExpiry + 1)

/-- Model of `strings.Cut(s, ".")` on a character list: split at the first `'.'`.
Returns `some (before, after)` when a dot is found, `none` otherwise
(Go additionally returns `before = s, after = ""` in the not-found case,
which `getExpirationTime` never uses). -/
def cutDotList : List Char → Option (List Char × List Char)
  | [] => none
  | c :: cs =>
    if c = '.' then some ([], cs)
    else (cutDotList cs).map (fun p => (c :: p.1, p.2))

/-- Model of `strings.Cut(s, ".")` on strings. -/
def cutDot (s : String) : Option (String × String) :=
  (cutDotList s.toList).map (fun p => (String.mk p.1, String.mk p.2))

/-- Value of one character in the base64url alphabet
(`A-Z a-z 0-9 - _`, the alphabet of `base64.RawURLEncoding`). -/
def b64Val (c : Char) : Option Nat :=
  let n := c.toNat
  if 65 ≤ n ∧ n ≤ 90 then some (n - 65)
  else if 97 ≤ n ∧ n ≤ 122 then some (n - 71)
  else if 48 ≤ n ∧ n ≤ 57 then some (n + 4)
  else if n = 45 then some 62
  else if n = 95 then some 63
  else none

/-- Decode a run of base64url characters (newlines already removed) into
bytes, Go `base64.RawURLEncoding` semantics: groups of four characters
yield three bytes; a final group of two or three characters yields one or
two bytes (Go's default non-strict mode ignores the unused trailing bits);
a final group of one character, or any character outside the alphabet, is
a `CorruptInputError`. -/
def b64DecodeGroups : List Char → Option (List Nat)
  | [] => some []
  | [_] => none
  | [a, b] => do
    let va ← b64Val a
    let vb ← b64Val b
    pure [va * 4 + vb / 16]
  | [a, b, c] => do
    let va ← b64Val a
    let vb ← b64Val b
    let vc ← b64Val c
    pure [va * 4 + vb / 16, (vb % 16) * 16 + vc / 4]
  | a :: b :: c :: d :: rest => do
    let va ← b64Val a
    let vb ← b64Val b
    let vc ← b64Val c
    let vd ← b64Val d
    let tail ← b64DecodeGroups rest
    pure ([va * 4 + vb / 16, (vb % 16) * 16 + vc / 4, (vc % 4) * 64 + vd] ++ tail)

/-- Model of `base64.RawURLEncoding.DecodeString`: Go's decoder ignores `\r` and
`\n` anywhere in the input, then decodes in groups of four. -/
def b64DecodeString (s : String) : Option (List Nat) :=
  b64DecodeGroups (s.toList.filter (fun c => c ≠ '\r' ∧ c ≠ '\n'))

/-! Section: a model of Go `encoding/json` decoding, for the inputs this
library decodes: the JWT claims object and the `Result[T]` envelope. -/

/-- A parsed JSON value. Number literals are kept as text, the way
`encoding/json` defers their conversion to the target field type. -/
inductive Jval where
  | jnull : Jval
  | jbool : Bool → Jval
  | jnum : String → Jval
  | jstr : String → Jval
  | jarr : List Jval → Jval
  | jobj : List (String × Jval) → Jval

/-- JSON insignificant whitespace. -/
def isJsonWs (c : Char) : Bool :=
  c = ' ' ∨ c = '\t' ∨ c = '\n' ∨ c = '\r'

/-- Drop leading JSON whitespace. -/
def skipWs : List Char → List Char
  | [] => []
  | c :: cs => if isJsonWs c then skipWs cs else c :: cs

/-- Value of a hexadecimal digit. -/
def hexVal (c : Char) : Option Nat :=
  let n := c.toNat
  if 48 ≤ n ∧ n ≤ 57 then some (n - 48)
  else if 97 ≤ n ∧ n ≤ 102 then some (n - 87)
  else if 65 ≤ n ∧ n ≤ 70 then some (n - 55)
  else none

/-- Parse the body of a JSON string (the opening quote already consumed):
returns the decoded characters and the input after the closing quote.
Escapes `\" \\ \/ \b \f \n \r \t \uXXXX` are handled; a `\uXXXX` escape in
the surrogate range becomes U+FFFD, matching Go's replacement of invalid
surrogate halves (well-formed surrogate pairs, which never occur in this
API's payloads, are not combined). Control characters below 0x20 and
unterminated strings are errors. -/
def parseStrBody (fuel : Nat) (cs : List Char) : Option (List Char × List Char) :=
  match fuel, cs with
  | 0, _ => none
  | _, [] => none
  | fuel + 1, c :: cs =>
    if c = '"' then some ([], cs)
    else if c = '\\' then
      match cs with
      | [] => none
      | e :: cs' =>
        let simpleEsc : Option Char :=
          if e = '"' then some '"'
          else if e = '\\' then some '\\'
          else if e = '/' then some '/'
          else if e = 'b' then some (Char.ofNat 8)
          else if e = 'f' then some (Char.ofNat 12)
          else if e = 'n' then some '\n'
          else if e = 'r' then some '\r'
          else if e = 't' then some '\t'
          else none
        match simpleEsc with
        | some d => (parseStrBody fuel cs').map (fun p => (d :: p.1, p.2))
        | none =>
          if e = 'u' then
            match cs' with
            | h1 :: h2 :: h3 :: h4 :: cs'' => do
              let v1 ← hexVal h1
              let v2 ← hexVal h2
              let v3 ← hexVal h3
              let v4 ← hexVal h4
              let n := ((v1 * 16 + v2) * 16 + v3) * 16 + v4
              let d := if 0xD800 ≤ n ∧ n ≤ 0xDFFF then Char.ofNat 0xFFFD else Char.ofNat n
              let p ← parseStrBody fuel cs''
              pure (d :: p.1, p.2)
            | _ => none
          else none
    else if c.toNat < 32 then none
    else (parseStrBody fuel cs).map (fun p => (c :: p.1, p.2))

/-- Take a maximal run of decimal digits. -/
def takeDigits : List Char → List Char × List Char
  | [] => ([], [])
  | c :: cs =>
    if c.isDigit then
      let p := takeDigits cs
      (c :: p.1, p.2)
    else ([], c :: cs)

/-- Parse a JSON number literal per the JSON grammar
(`-? (0 | [1-9][0-9]*) frac? exp?`), returning its text and the rest. -/
def parseNumLit (cs : List Char) : Option (List Char × List Char) := do
  let (neg, cs1) :=
    match cs with
    | '-' :: rest => (['-'], rest)
    | _ => (([] : List Char), cs)
  let (intPart, cs2) ←
    match cs1 with
    | '0' :: rest => some (['0'], rest)
    | c :: _ =>
      if c.isDigit then
        let p := takeDigits cs1
        some (p.1, p.2)
      else none
    | [] => none
  let (fracPart, cs3) ←
    match cs2 with
    | '.' :: rest =>
      let p := takeDigits rest
      if p.1 = [] then none else some ('.' :: p.1, p.2)
    | _ => some (([] : List Char), cs2)
  let (expPart, cs4) ←
    match cs3 with
    | e :: rest =>
      if e = 'e' ∨ e = 'E' then
        let (sgn, rest') :=
          match rest with
          | s :: r => if s = '+' ∨ s = '-' then ([s], r) else (([] : List Char), rest)
          | [] => (([] : List Char), rest)
        let p := takeDigits rest'
        if p.1 = [] then none else some (e :: sgn ++ p.1, p.2)
      else some (([] : List Char), cs3)
    | [] => some (([] : List Char), cs3)
  pure (neg ++ intPart ++ fracPart ++ expPart, cs4)

mutual

/-- Parse one JSON value (leading whitespace allowed). -/
def parseValue (fuel : Nat) (cs : List Char) : Option (Jval × List Char) :=
  match fuel with
  | 0 => none
  | fuel + 1 =>
    match skipWs cs with
    | 'n' :: 'u' :: 'l' :: 'l' :: rest => some (.jnull, rest)
    | 't' :: 'r' :: 'u' :: 'e' :: rest => some (.jbool true, rest)
    | 'f' :: 'a' :: 'l' :: 's' :: 'e' :: rest => some (.jbool false, rest)
    | '"' :: rest => (parseStrBody (rest.length + 1) rest).map (fun p => (.jstr (String.mk p.1), p.2))
    | '[' :: rest => parseArr fuel rest
    | '{' :: rest => parseObj fuel rest
    | c :: rest =>
      if c = '-' ∨ c.isDigit then
        (parseNumLit (c :: rest)).map (fun p => (.jnum (String.mk p.1), p.2))
      else none
    | [] => none

/-- Parse the members of a JSON array, the `'['` already consumed. -/
def parseArr (fuel : Nat) (cs : List Char) : Option (Jval × List Char) :=
  match fuel with
  | 0 => none
  | fuel + 1 =>
    match skipWs cs with
    | ']' :: rest => some (.jarr [], rest)
    | cs' => do
      let (v, rest) ← parseValue fuel cs'
      let (vs, rest') ← parseArrRest fuel rest
      pure (.jarr (v :: vs), rest')

/-- Parse `(',' value)* ']'` after an array element. -/
def parseArrRest (fuel : Nat) (cs : List Char) : Option (List Jval × List Char) :=
  match fuel with
  | 0 => none
  | fuel + 1 =>
    match skipWs cs with
    | ']' :: rest => some ([], rest)
    | ',' :: rest => do
      let (v, rest') ← parseValue fuel rest
      let (vs, rest'') ← parseArrRest fuel rest'
      pure (v :: vs, rest'')
    | _ => none

/-- Parse the members of a JSON object, the `'{'` already consumed. -/
def parseObj (fuel : Nat) (cs : List Char) : Option (Jval × List Char) :=
  match fuel with
  | 0 => none
  | fuel + 1 =>
    match skipWs cs with
    | '}' :: rest => some (.jobj [], rest)
    | '"' :: rest => do
      let (k, rest1) ← parseStrBody (rest.length + 1) rest
      let (v, rest2) ← parseMemberValue fuel rest1
      let (ms, rest3) ← parseObjRest fuel rest2
      pure (.jobj ((String.mk k, v) :: ms), rest3)
    | _ => none

/-- Parse `':' value` after an object key. -/
def parseMemberValue (fuel : Nat) (cs : List Char) : Option (Jval × List Char) :=
  match fuel with
  | 0 => none
  | fuel + 1 =>
    match skipWs cs with
    | ':' :: rest => parseValue fuel rest
    | _ => none

/-- Parse `(',' member)* '}'` after an object member. -/
def parseObjRest (fuel : Nat) (cs : List Char) : Option (List (String × Jval) × List Char) :=
  match fuel with
  | 0 => none
  | fuel + 1 =>
    match skipWs cs with
    | '}' :: rest => some ([], rest)
    | ',' :: rest =>
      match skipWs rest with
      | '"' :: rest1 => do
        let (k, rest2) ← parseStrBody (rest1.length + 1) rest1
        let (v, rest3) ← parseMemberValue fuel rest2
        let (ms, rest4) ← parseObjRest fuel rest3
        pure ((String.mk k, v) :: ms, rest4)
      | _ => none
    | _ => none

end

/-- Model of `json.NewDecoder(r).Decode(&v)`: decode the first JSON value from the
input; data after that value is not consumed and is not an error. An
input with no value (empty or whitespace only) is an error (`io.EOF`). -/
def jsonDecodeOne (s : String) : Option Jval :=
  (parseValue (s.length + 1) s.toList).map Prod.fst

/-- Model of `json.Unmarshal(data, &v)`: decode one JSON value and require that
only whitespace follows it. -/
def jsonUnmarshalVal (cs : List Char) : Option Jval := do
  let (v, rest) ← parseValue (cs.length + 1) cs
  if skipWs rest = [] then pure v else none

/-- Model of `strconv.ParseInt(lit, 10, 64)` as used by `encoding/json` for an
`int64` target: an optional sign followed by decimal digits, value within
the `int64` range. A literal with a fraction or exponent fails here,
which is exactly how `json.Unmarshal` rejects non-integer numbers for an
`int64` field. -/
def parseInt64Lit (lit : String) : Option Int :=
  let (neg, ds) :=
    match lit.toList with
    | '-' :: rest => (true, rest)
    | cs => (false, cs)
  if ds = [] ∨ ¬ ds.all Char.isDigit then none
  else
    let m : Nat := ds.foldl (fun acc c => acc * 10 + (c.toNat - 48)) 0
    let v : Int := if neg then -(m : Int) else (m : Int)
    if -(2 ^ 63) ≤ v ∧ v < 2 ^ 63 then some v else none

/-- Go's case-insensitive field-name match (`foldName`), restricted to
ASCII folding, which covers every key this API emits. -/
def keyFoldEq (a b : String) : Bool :=
  a.toList.map Char.toLower = b.toList.map Char.toLower

/-- One streaming step of `json.Unmarshal(decoded, &claims)` for
`struct { Exp int64 \x60json:"exp"\x60 }`: keys are processed in input order;
a key matching `exp` must hold a JSON integer (updating the field) or
`null` (leaving it unchanged); other keys are ignored. -/
def claimsStep (acc : Option Int) (kv : String × Jval) : Option Int := do
  let cur ← acc
  if keyFoldEq kv.1 "exp" then
    match kv.2 with
    | .jnull => pure cur
    | .jnum lit => parseInt64Lit lit
    | _ => none
  else pure cur

/-- Model of `json.Unmarshal` of the decoded JWT payload into
`struct { Exp int64 \x60json:"exp"\x60 }` (auth.go:189-195): the payload must
be a single JSON object (or `null`), with nothing but whitespace after it;
`Exp` starts at zero and is only assigned from an `exp` member. Returns
`none` on any unmarshal error. -/
def jsonUnmarshalClaims (bytes : List Nat) : Option Int := do
  let v ← jsonUnmarshalVal (bytes.map Char.ofNat)
  match v with
  | .jnull => pure 0
  | .jobj fields => fields.foldl claimsStep (some 0)
  | _ => none

/-- Model of `getExpirationTime` (auth.go:168-198): split the token on the first
two dots, base64url-decode the middle segment, unmarshal its claims, and
return `time.Unix(claims.Exp, 0)`; every failure logs and returns the
`past` sentinel. Total — no panic is possible. -/
def getExpirationTime (accessToken : String) : Int :=
  match cutDot accessToken with
  | none => past
  | some (_, s) =>
    match cutDot s with
    | none => past
    | some (payload, _) =>
      match b64DecodeString payload with
      | none => past
      | some decoded =>
        match jsonUnmarshalClaims decoded with
        | none => past
        | some exp => timeUnix exp

/-! Section: decoding the `Result[T]` response envelope (base.go:17-25). -/

/-- The payload of a successful auth response:
`struct { AccessToken string \x60json:"accessToken"\x60; RefreshToken string \x60json:"refreshToken"\x60 }`. -/
structure AuthPayload where
  accessToken : String
  refreshToken : String
deriving DecidableEq

/-- The decoded fields of `Result[T]` that do not depend on `T`:
`Ok` (key `success`) and `Error` (key `message`). -/
structure EnvBase where
  ok : Bool
  error : String
deriving DecidableEq

/-- One streaming step for the two type-independent envelope fields. -/
def envBaseStep (acc : Option EnvBase) (kv : String × Jval) : Option EnvBase := do
  let cur ← acc
  if keyFoldEq kv.1 "success" then
    match kv.2 with
    | .jnull => pure cur
    | .jbool b => pure { cur with ok := b }
    | _ => none
  else if keyFoldEq kv.1 "message" then
    match kv.2 with
    | .jnull => pure cur
    | .jstr s => pure { cur with error := s }
    | _ => none
  else pure cur

/-- Model of `json.NewDecoder(resp.Body).Decode(&result)` for `Result[any]`
(auth.go:139-140): the `data` member may hold any JSON value, so only
`success` and `message` constrain the decode. Top level must be an
object or `null`; `null` leaves the zero value. -/
def decodeResultAny (body : String) : Option EnvBase := do
  let v ← jsonDecodeOne body
  match v with
  | .jnull => pure ⟨false, ""⟩
  | .jobj fields => fields.foldl envBaseStep (some ⟨false, ""⟩)
  | _ => none

/-- One streaming step for the auth payload object's fields. -/
def authPayloadStep (acc : Option AuthPayload) (kv : String × Jval) : Option AuthPayload := do
  let cur ← acc
  if keyFoldEq kv.1 "accessToken" then
    match kv.2 with
    | .jnull => pure cur
    | .jstr s => pure { cur with accessToken := s }
    | _ => none
  else if keyFoldEq kv.1 "refreshToken" then
    match kv.2 with
    | .jnull => pure cur
    | .jstr s => pure { cur with refreshToken := s }
    | _ => none
  else pure cur

/-- Unmarshal a JSON value into the auth payload struct. -/
def decodeAuthPayload (v : Jval) : Option AuthPayload :=
  match v with
  | .jnull => some ⟨"", ""⟩
  | .jobj fields => fields.foldl authPayloadStep (some ⟨"", ""⟩)
  | _ => none

/-- The fully decoded `Result[struct{AccessToken, RefreshToken string}]`
of auth.go:147-150. -/
structure AuthResult where
  data : AuthPayload
  ok : Bool
  error : String
deriving DecidableEq

/-- One streaming step for the typed auth envelope. -/
def authResultStep (acc : Option AuthResult) (kv : String × Jval) : Option AuthResult := do
  let cur ← acc
  if keyFoldEq kv.1 "data" then
    match decodeAuthPayload kv.2 with
    | some p => pure { cur with data := p }
    | none => none
  else if keyFoldEq kv.1 "success" then
    match kv.2 with
    | .jnull => pure cur
    | .jbool b => pure { cur with ok := b }
    | _ => none
  else if keyFoldEq kv.1 "message" then
    match kv.2 with
    | .jnull => pure cur
    | .jstr s => pure { cur with error := s }
    | _ => none
  else pure cur

/-- Model of `json.NewDecoder(resp.Body).Decode(&result)` for the typed auth
envelope (auth.go:147-151). -/
def decodeAuthResult (body : String) : Option AuthResult := do
  let v ← jsonDecodeOne body
  match v with
  | .jnull => pure ⟨⟨"", ""⟩, false, ""⟩
  | .jobj fields => fields.foldl authResultStep (some ⟨⟨"", ""⟩, false, ""⟩)
  | _ => none

/-! Section: the token source (auth.go). -/

/-- Model of `Config` (base.go:7-13): the credentials. -/
structure Config where
  Email : String
  Password : String
deriving DecidableEq

/-- The mutable fields of `tokenSource` (auth.go:62-67). -/
structure TokenState where
  accessToken : String
  refreshToken : String
deriving DecidableEq

/-- The `oauth2.Token` fields this library sets (auth.go:161-165).
`expiry` is nanoseconds since the Go zero time. -/
structure OAuth2Token where
  accessToken : String
  tokenType : String
  expiry : Int
deriving DecidableEq

/-- The observable outcome of one HTTP round trip, as seen by
`requestAccessToken`: a request-construction error from
`http.NewRequest` (impossible for this library's constant methods and
URLs, kept for completeness), a transport error from `client.Do`, or a
status line, status code and body. -/
structure HttpResponse where
  newReqErr : Option String := none
  doErr : Option String := none
  statusCode : Int := 200
  status : String := ""
  body : String := ""

/-- Model of `const errorPrefix = "diyanet: "` (base.go:4). -/
def errorPfx : String := "diyanet: "

/-- Model of `retrieveTokenErrorPrefix` (auth.go:20). -/
def retrieveTokenErrorPfx : String := errorPfx ++ "unable to retrieve access token: "

/-- Model of `refreshTokenErrorPrefix` (auth.go:21). -/
def refreshTokenErrorPfx : String := errorPfx ++ "unable to refresh access token: "

/-- Model of `(*tokenSource).requestAccessToken` (auth.go:117-166), with the HTTP
round trip supplied as data. Returns the token-source state after the
call together with the `(token, error)` result. The wrapped text of a
JSON decode error is not modelled, only its occurrence. -/
def requestAccessToken (st : TokenState) (resp : HttpResponse) (errPfx : String) :
    TokenState × Except String OAuth2Token :=
  match resp.newReqErr with
  | some e => (st, .error e)
  | none =>
    match resp.doErr with
    | some e => (st, .error (errPfx ++ "failed to make refresh token request: " ++ e))
    | none =>
      if resp.statusCode < 200 ∨ 300 ≤ resp.statusCode then
        match decodeResultAny resp.body with
        | some r =>
          if r.ok = false then
            (st, .error (errPfx ++ "API error: " ++ r.error))
          else
            (st, .error (errPfx ++ "received non-2xx status code: " ++ resp.status ++
              " (" ++ toString resp.statusCode ++ ")"))
        | none =>
          (st, .error (errPfx ++ "received non-2xx status code: " ++ resp.status ++
            " (" ++ toString resp.statusCode ++ ")"))
      else
        match decodeAuthResult resp.body with
        | none => (st, .error (errPfx ++ "failed to decode response"))
        | some r =>
          if r.ok = false then
            (st, .error (errPfx ++ "API error: " ++ r.error))
          else
            ({ accessToken := r.data.accessToken, refreshToken := r.data.refreshToken },
              .ok { accessToken := r.data.accessToken,
                    tokenType := "Bearer",
                    expiry := getExpirationTime r.data.accessToken })

/-- The environment of one `Token()` invocation: the current clock
reading and the round-trip outcomes the two possible requests would
observe. -/
structure TokenEnv where
  now : Int
  refreshResp : HttpResponse
  loginResp : HttpResponse

/-- One network attempt made by `Token()`: a GET of
`Auth/RefreshToken/{ticket}` carrying `Authorization: Bearer {bearer}`,
or a POST to `Auth/Login` whose JSON body carries the credentials. -/
inductive Attempt where
  | refresh (ticket : String) (bearer : String)
  | login (email : String) (password : String)
deriving DecidableEq

/-- Everything one `Token()` invocation produces: the state left in the
token source, the returned `(token, error)`, the network attempts in
order, and the messages passed to `log.Println`. -/
structure TokenOutcome where
  state : TokenState
  result : Except String OAuth2Token
  attempts : List Attempt
  logs : List String

/-- Model of `(*tokenSource).Token` (auth.go:70-115). A refresh is attempted
only when both stored tokens are non-empty and
`getExpirationTime(accessToken).Round(0).Add(-10s).After(now)`; on
refresh failure the error is logged and a single login follows.
`json.Marshal` of two string fields cannot fail, so the marshal-error
branch (auth.go:99-101) is unreachable and not modelled. -/
def tokenSourceToken (conf : Config) (st : TokenState) (env : TokenEnv) : TokenOutcome :=
  if st.accessToken ≠ "" ∧ st.refreshToken ≠ "" ∧
      env.now < getExpirationTime st.accessToken - 10 * nsPerSec then
    match requestAccessToken st env.refreshResp refreshTokenErrorPfx with
    | (st1, .ok tok) =>
      { state := st1, result := .ok tok,
        attempts := [.refresh st.refreshToken st.accessToken], logs := [] }
    | (st1, .error e) =>
      match requestAccessToken st1 env.loginResp retrieveTokenErrorPfx with
      | (st2, r2) =>
        { state := st2, result := r2,
          attempts := [.refresh st.refreshToken st.accessToken,
                       .login conf.Email conf.Password],
          logs := [e] }
  else
    match requestAccessToken st env.loginResp retrieveTokenErrorPfx with
    | (st2, r2) =>
      { state := st2, result := r2,
        attempts := [.login conf.Email conf.Password], logs := [] }

/-- The expiry test of the `oauth2.ReuseTokenSourceWithExpiry` wrapper
that `Config.TokenSource` (auth.go:53-60) puts around `tokenSource`,
with `expiryDelta = earlyExpiry`: a token with a zero expiry never
expires; otherwise it is expired once
`Expiry.Round(0).Add(-expiryDelta).Before(now)`. -/
def reuseTokenExpired (tok : OAuth2Token) (now : Int) : Bool :=
  if tok.expiry = 0 then false else tok.expiry - earlyExpiry < now

/-- Does `sub` occur contiguously inside `s`? -/
def listContains (sub : List Char) : List Char → Bool
  | [] => List.isPrefixOf sub []
  | c :: cs => List.isPrefixOf sub (c :: cs) || listContains sub cs

/-- Substring test (Go `strings.Contains`), used to state "the error
contains …". -/
def strContains (s sub : String) : Bool :=
  listContains sub.toList s.toList

/-- Did the call return a token? -/
def isOkB : Except String OAuth2Token → Bool
  | .ok _ => true
  | .error _ => false

/-- The message of an error result (and `""` for a success). -/
def errTextOf : Except String OAuth2Token → String
  | .error e => e
  | .ok _ => ""

/-- The access token carried by a successful result (`""` on error). -/
def tokAccessOf : Except String OAuth2Token → String
  | .ok t => t.accessToken
  | .error _ => ""

/-- The successful chain of `getExpirationTime`: two dots found, middle
segment base64url-decodes, claims unmarshal; yields the `exp` claim. -/
def claimsExpOf (accessToken : String) : Option Int := do
  let p1 ← cutDot accessToken
  let p2 ← cutDot p1.2
  let decoded ← b64DecodeString p2.1
  jsonUnmarshalClaims decoded

/-- The text the spec expects inside a non-2xx error: the server message
when an envelope with `success:false` decodes, the status code otherwise. -/
def expectedNon2xxFragment (resp : HttpResponse) : String :=
  match decodeResultAny resp.body with
  | some r => if r.ok = false then r.error else toString resp.statusCode
  | none => toString resp.statusCode

/-- Is this attempt a login? -/
def isLoginAttempt : Attempt → Bool
  | .login _ _ => true
  | .refresh _ _ => false

/-- Is this attempt a refresh? -/
def isRefreshAttempt : Attempt → Bool
  | .refresh _ _ => true
  | .login _ _ => false

/-! Section: prayer-time results (prayertime.go). -/

/-- A Go `time.Time` in its wall-clock (civil) reading: the calendar
fields together with the zone offset of its location. `Year()`,
`Month()`, `Day()` are the projections, and `time.Date` applied to
already-normalized fields (which is how `fixGregorianDate` calls it — the
fields come from an existing `time.Time`) builds the record directly.
`time.FixedZone`'s display name does not influence any computation the
claims mention and is omitted; a location is its offset in seconds. -/
structure GoDateTime where
  year : Int
  month : Int
  day : Int
  hour : Int
  minute : Int
  second : Int
  nsec : Int
  offsetSec : Int
deriving DecidableEq

/-- Model of `PrayerTime` (prayertime.go:15-50). `GreenwichMeanTimeZone` is a Go
`float32`; every GMT offset the service emits (whole or quarter-hour
multiples) is exactly representable, so it is modelled as a rational. -/
structure PrayerTime where
  ShapeMoonURL : String
  Fajr : String
  Sunrise : String
  Dhuhr : String
  Asr : String
  Maghrib : String
  Isha : String
  AstronomicalSunset : String
  AstronomicalSunrise : String
  HijriDateShort : String
  HijriDateLong : String
  HijriDate : GoDateTime
  QiblaTime : String
  GregorianDateShort : String
  GregorianDateLong : String
  GregorianDate : GoDateTime
  GreenwichMeanTimeZone : ℚ
deriving DecidableEq

/-- Go's `int(x)` conversion of a non-integral value: truncation toward
zero. For a rational this is T-division of numerator by denominator. -/
def ratTruncToInt (q : ℚ) : Int := Int.tdiv q.num (q.den : Int)

/-- Model of `(*PrayerTime).fixGregorianDate` (prayertime.go:52-64): when no
timezone is passed, build a fixed zone from `int(GreenwichMeanTimeZone *
3600)`; then rebuild `GregorianDate` as `time.Date(year, month, day, 0,
0, 0, 0, timezone)` from its own calendar fields. -/
def fixGregorianDate (pt : PrayerTime) (timezone : Option Int) : PrayerTime :=
  let off : Int :=
    match timezone with
    | some o => o
    | none => ratTruncToInt (pt.GreenwichMeanTimeZone * 3600)
  { pt with
    GregorianDate :=
      { year := pt.GregorianDate.year
        month := pt.GregorianDate.month
        day := pt.GregorianDate.day
        hour := 0, minute := 0, second := 0, nsec := 0
        offsetSec := off } }

/-- The decoded `Result[[]PrayerTime]` envelope. -/
structure PrayerTimeResult where
  data : List PrayerTime
  ok : Bool
  error : String
deriving DecidableEq

/-- The observable outcome of the GET a prayer-time accessor performs:
a transport error from `httpClient.Get`, or a body whose decode into
`Result[[]PrayerTime]` either fails (`none`) or yields an envelope.
(Decoding the `PrayerTime` JSON itself — ISO-8601 timestamps included —
happens inside `encoding/json` and is supplied here already decoded.) -/
structure PrayerHttpResponse where
  getErr : Option String := none
  body : Option PrayerTimeResult := none

/-- The `City` fields its error messages use (Name, Id, Code). -/
structure CityInfo where
  name : String
  id : Int
  code : String

/-- Model of `(*City).GetPrayerTimeDaily` (prayertime.go:69-96). -/
def getPrayerTimeDaily (c : CityInfo) (resp : PrayerHttpResponse) (timezone : Option Int) :
    Except String (List PrayerTime) :=
  match resp.getErr with
  | some e => .error (errorPfx ++ "unable to get daily prayer time for city " ++ c.name ++
      " (" ++ toString c.id ++ " – " ++ c.code ++ "): " ++ e)
  | none =>
    match resp.body with
    | none => .error (errorPfx ++ "unable to decode daily prayer time response for city " ++
        c.name ++ " (" ++ toString c.id ++ " – " ++ c.code ++ ")")
    | some r =>
      if r.ok = false then
        .error (errorPfx ++ "API error retrieving daily prayer time for city " ++ c.name ++
          " (" ++ toString c.id ++ " – " ++ c.code ++ "): " ++ r.error)
      else .ok (r.data.map (fun pt => fixGregorianDate pt timezone))

/-- Model of `(*City).GetPrayerTimeWeekly` (prayertime.go:101-128); `cityID` only
feeds the request URL, which this model does not inspect. -/
def getPrayerTimeWeekly (c : CityInfo) (_cityID : Int) (resp : PrayerHttpResponse)
    (timezone : Option Int) : Except String (List PrayerTime) :=
  match resp.getErr with
  | some e => .error (errorPfx ++ "unable to get weekly prayer time for city " ++ c.name ++
      " (" ++ toString c.id ++ " – " ++ c.code ++ "): " ++ e)
  | none =>
    match resp.body with
    | none => .error (errorPfx ++ "unable to decode weekly prayer time response for city " ++
        c.name ++ " (" ++ toString c.id ++ " – " ++ c.code ++ ")")
    | some r =>
      if r.ok = false then
        .error (errorPfx ++ "API error retrieving weekly prayer time for city " ++ c.name ++
          " (" ++ toString c.id ++ " – " ++ c.code ++ "): " ++ r.error)
      else .ok (r.data.map (fun pt => fixGregorianDate pt timezone))

/-- Model of `(*City).GetPrayerTimeMonthly` (prayertime.go:133-160). -/
def getPrayerTimeMonthly (c : CityInfo) (_cityID : Int) (resp : PrayerHttpResponse)
    (timezone : Option Int) : Except String (List PrayerTime) :=
  match resp.getErr with
  | some e => .error (errorPfx ++ "unable to get monthly prayer time for city " ++ c.name ++
      " (" ++ toString c.id ++ " – " ++ c.code ++ "): " ++ e)
  | none =>
    match resp.body with
    | none => .error (errorPfx ++ "unable to decode monthly prayer time response for city " ++
        c.name ++ " (" ++ toString c.id ++ " – " ++ c.code ++ ")")
    | some r =>
      if r.ok = false then
        .error (errorPfx ++ "API error retrieving monthly prayer time for city " ++ c.name ++
          " (" ++ toString c.id ++ " – " ++ c.code ++ "): " ++ r.error)
      else .ok (r.data.map (fun pt => fixGregorianDate pt timezone))

/-- The spec's words for claim C10: midnight (hour, minute, second and
nanosecond all zero) of the date's original year, month and day, in the
zone with the given offset. -/
def specMidnightDate (d : GoDateTime) (off : Int) : GoDateTime :=
  { year := d.year, month := d.month, day := d.day,
    hour := 0, minute := 0, second := 0, nsec := 0, offsetSec := off }

/-- The spec's words for claim C10's zone choice: the caller's timezone,
or a fixed zone of `GreenwichMeanTimeZone * 3600` seconds. -/
def specZoneOffset (timezone : Option Int) (pt : PrayerTime) : Int :=
  timezone.getD (ratTruncToInt (pt.GreenwichMeanTimeZone * 3600))

/-! Section: concrete scenario data from the spec's testable properties. -/

/-- The spec's scenario access token, whose middle segment decodes to
`{"exp": 9999999999}`. -/
def scenarioToken : String := "a.eyJleHAiOjk5OTk5OTk5OTl9.b"

/-- The spec's scenario login response body. -/
def scenarioLoginBody : String :=
  "\x7b\"data\":\x7b\"accessToken\":\"a.eyJleHAiOjk5OTk5OTk5OTl9.b\",\"refreshToken\":\"r1\"\x7d,\"success\":true,\"message\":\"\"\x7d"

/-- A 200 response carrying `scenarioLoginBody`. -/
def scenarioLoginResp : HttpResponse :=
  { statusCode := 200, status := "200 OK", body := scenarioLoginBody }

/-- The spec's scenario refresh rejection: HTTP 401 with
`{"success":false,"message":"token expired"}`. -/
def scenarioRefreshFailResp : HttpResponse :=
  { statusCode := 401, status := "401 Unauthorized",
    body := "\x7b\"success\":false,\"message\":\"token expired\"\x7d" }

/-- A transport-level failure. -/
def scenarioTransportFailResp : HttpResponse :=
  { doErr := some "dial tcp: connection refused" }

/-- A 2xx response whose envelope reports `success:false`. -/
def scenarioApiFailResp : HttpResponse :=
  { statusCode := 200, status := "200 OK",
    body := "\x7b\"success\":false,\"message\":\"token expired\"\x7d" }

/-- A token source holding the scenario token and ticket `"r1"`. -/
def scenarioState : TokenState := { accessToken := scenarioToken, refreshToken := "r1" }

/-- Scenario credentials. -/
def scenarioConf : Config := { Email := "user@example.com", Password := "secret" }

/-- An invocation environment in which the refresh is rejected with the
scenario 401 and the follow-up login fails at the transport level. -/
def scenarioEnvBothFail : TokenEnv :=
  { now := timeUnix 0, refreshResp := scenarioRefreshFailResp,
    loginResp := scenarioTransportFailResp }

/-- A sample prayer-time element: an afternoon timestamp in a GMT+3
location. -/
def samplePrayerTime : PrayerTime :=
  { ShapeMoonURL := "", Fajr := "05:12", Sunrise := "06:41", Dhuhr := "13:18",
    Asr := "16:42", Maghrib := "19:45", Isha := "21:08",
    AstronomicalSunset := "", AstronomicalSunrise := "",
    HijriDateShort := "", HijriDateLong := "",
    HijriDate := { year := 1445, month := 9, day := 5, hour := 0, minute := 0,
                   second := 0, nsec := 0, offsetSec := 0 },
    QiblaTime := "",
    GregorianDateShort := "", GregorianDateLong := "",
    GregorianDate := { year := 2024, month := 3, day := 15, hour := 13, minute := 45,
                       second := 30, nsec := 500, offsetSec := 0 },
    GreenwichMeanTimeZone := 3 }

/-- A sample city for the prayer-time accessors. -/
def sampleCity : CityInfo := { name := "Istanbul", id := 539, code := "IST" }

/-- A successful prayer-time response carrying one element. -/
def samplePrayerResp : PrayerHttpResponse :=
  { body := some { data := [samplePrayerTime], ok := true, error := "" } }

/-! Section: helper lemmas shared by the claim theorems. -/

/-- When the whole decode chain succeeds with claim `T`,
`getExpirationTime` returns `time.Unix(T, 0)`. -/
theorem getExpirationTime_eq_timeUnix (a : String) (T : Int)
    (h : claimsExpOf a = some T) : getExpirationTime a = timeUnix T := by
  unfold claimsExpOf at h
  unfold getExpirationTime
  cases h1 : cutDot a with
  | none => simp [h1] at h
  | some p1 =>
    cases h2 : cutDot p1.2 with
    | none => simp [h1, h2] at h
    | some p2 =>
      cases h3 : b64DecodeString p2.1 with
      | none => simp [h1, h2, h3] at h
      | some bs =>
        simp only [h1, h2, h3, Option.bind_eq_bind, Option.some_bind] at h
        simp [h1, h2, h3, h]

/-- An error return of `requestAccessToken` leaves the token-source
state untouched. -/
theorem requestAccessToken_error_frame (st : TokenState) (resp : HttpResponse)
    (ep : String) (h : isOkB (requestAccessToken st resp ep).2 = false) :
    (requestAccessToken st resp ep).1 = st := by
  unfold requestAccessToken at h ⊢
  cases hn : resp.newReqErr with
  | some e => simp [hn]
  | none =>
    simp only [hn] at h ⊢
    cases hd : resp.doErr with
    | some e => simp [hd]
    | none =>
      simp only [hd] at h ⊢
      by_cases hs : resp.statusCode < 200 ∨ 300 ≤ resp.statusCode
      · simp only [if_pos hs]
        cases hq : decodeResultAny resp.body with
        | none => simp [hq]
        | some r => by_cases hr : r.ok = false <;> simp [hq, hr]
      · simp only [if_neg hs] at h ⊢
        cases hq : decodeAuthResult resp.body with
        | none => simp [hq]
        | some r =>
          simp only [hq] at h ⊢
          by_cases hr : r.ok = false
          · simp [hr]
          · simp [hr, isOkB] at h

/-- The fully successful path of `requestAccessToken`: a 2xx status, a
decodable envelope and `success:true` store the payload's tokens and
return the derived `oauth2.Token`. -/
theorem requestAccessToken_success_eq (st : TokenState) (resp : HttpResponse)
    (ep : String) (r : AuthResult)
    (h1 : resp.newReqErr = none) (h2 : resp.doErr = none)
    (h3 : 200 ≤ resp.statusCode) (h4 : resp.statusCode < 300)
    (h5 : decodeAuthResult resp.body = some r) (h6 : r.ok = true) :
    requestAccessToken st resp ep =
      ({ accessToken := r.data.accessToken, refreshToken := r.data.refreshToken },
        .ok { accessToken := r.data.accessToken, tokenType := "Bearer",
              expiry := getExpirationTime r.data.accessToken }) := by
  unfold requestAccessToken
  have hs : ¬ (resp.statusCode < 200 ∨ 300 ≤ resp.statusCode) := by omega
  simp [h1, h2, h5, if_neg hs, h6]

/-- Model of `earlyExpiry` is a positive duration. -/
theorem earlyExpiry_pos : 0 < earlyExpiry := by decide

/-- For a non-negative epoch second count, `time.Unix` lands strictly
after the Go zero time. -/
theorem timeUnix_pos (T : Int) (h : 0 ≤ T) : 0 < timeUnix T := by
  unfold timeUnix nsPerSec unixToInternalSec
  have h1 : (0 : Int) < 62135596800 + T := by omega
  exact mul_pos h1 (by norm_num)

/-- A list occurs inside any list that has it as a contiguous segment. -/
theorem listContains_append (m l r : List Char) :
    listContains m (l ++ m ++ r) = true := by
  induction l with
  | nil =>
    cases hm : m ++ r with
    | nil =>
      have hm0 : m = [] := by
        cases m with
        | nil => rfl
        | cons a as => simp at hm
      have hr0 : r = [] := by simpa [hm0] using hm
      simp [hm0, hr0, listContains, List.isPrefixOf]
    | cons c cs =>
      simp only [List.nil_append]
      rw [hm]
      unfold listContains
      have : List.isPrefixOf m (c :: cs) = true := by
        rw [← hm, List.isPrefixOf_iff_prefix]
        exact List.prefix_append m r
      simp [this]
  | cons a as ih =>
    simp only [List.cons_append]
    unfold listContains
    simp only [List.append_assoc] at ih
    simp [ih]

/-- Model of `strings.Contains (l ++ m ++ r) m` holds. -/
theorem strContains_append (l m r : String) :
    strContains (l ++ m ++ r) m = true := by
  unfold strContains
  have h : (l ++ m ++ r).toList = l.toList ++ m.toList ++ r.toList := by simp
  rw [h]
  exact listContains_append m.toList l.toList r.toList

/-! Section: claim theorems. -/

/-- Claim C1 counterexample: At the spec's own scenario input — a login
response whose access token's middle segment decodes to
`{"exp": 9999999999}` — the token returned by `requestAccessToken` has
`Expiry` exactly `time.Unix(9999999999, 0)`: it is not strictly less
than the claim time, and a fortiori not less by `earlyExpiry`. -/
theorem requestAccessToken_expiry_not_early_counterexample :
    claimsExpOf scenarioToken = some 9999999999 ∧
    (requestAccessToken { accessToken := "", refreshToken := "" }
        scenarioLoginResp retrieveTokenErrorPfx).2 =
      .ok { accessToken := scenarioToken, tokenType := "Bearer",
            expiry := timeUnix 9999999999 } ∧
    ¬ (timeUnix 9999999999 + earlyExpiry ≤ timeUnix 9999999999) ∧
    ¬ (timeUnix 9999999999 < timeUnix 9999999999) := by
  refine ⟨by decide, ?_, by decide, by decide⟩
  have h5 : decodeAuthResult scenarioLoginResp.body =
      some { data := { accessToken := scenarioToken, refreshToken := "r1" },
             ok := true, error := "" } := by decide
  have := requestAccessToken_success_eq { accessToken := "", refreshToken := "" }
    scenarioLoginResp retrieveTokenErrorPfx _ (by decide) (by decide) (by decide)
    (by decide) h5 (by decide)
  rw [this]
  have he : getExpirationTime scenarioToken = timeUnix 9999999999 :=
    getExpirationTime_eq_timeUnix _ _ (by decide)
  simp [he]

/-- Claim C1 amended: On a fully successful auth response whose access
token carries the claim `exp = T`, the returned token's `Expiry` equals
`time.Unix(T, 0)` exactly — the safety margin is not subtracted here.
Conservatism is instead provided by the `oauth2.ReuseTokenSourceWithExpiry`
wrapper installed by `Config.TokenSource` with `expiryDelta = earlyExpiry`:
any instant `now` at which that wrapper still treats the token as fresh
precedes `time.Unix(T, 0)` by at least `earlyExpiry`. -/
theorem requestAccessToken_expiry_with_reuse_margin
    (st : TokenState) (resp : HttpResponse) (ep : String) (r : AuthResult)
    (T now : Int)
    (h1 : resp.newReqErr = none) (h2 : resp.doErr = none)
    (h3 : 200 ≤ resp.statusCode) (h4 : resp.statusCode < 300)
    (h5 : decodeAuthResult resp.body = some r) (h6 : r.ok = true)
    (h7 : claimsExpOf r.data.accessToken = some T) (h8 : 0 ≤ T)
    (h9 : reuseTokenExpired ⟨r.data.accessToken, "Bearer", timeUnix T⟩ now = false) :
    (requestAccessToken st resp ep).2 =
      .ok { accessToken := r.data.accessToken, tokenType := "Bearer",
            expiry := timeUnix T } ∧
    now + earlyExpiry ≤ timeUnix T ∧ now < timeUnix T := by
  have heq := requestAccessToken_success_eq st resp ep r h1 h2 h3 h4 h5 h6
  have he : getExpirationTime r.data.accessToken = timeUnix T :=
    getExpirationTime_eq_timeUnix _ _ h7
  have hpos : 0 < timeUnix T := timeUnix_pos T h8
  unfold reuseTokenExpired at h9
  simp only [if_neg (by omega : ¬ timeUnix T = 0)] at h9
  have hlt : ¬ (timeUnix T - earlyExpiry < now) := by
    simpa using h9
  have hearly := earlyExpiry_pos
  refine ⟨?_, by omega, by omega⟩
  rw [heq, he]

/-- Claim C1 witness: The amended claim at the spec's scenario input, with
the clock at the Unix epoch. -/
theorem requestAccessToken_expiry_with_reuse_margin_witness :
    (requestAccessToken { accessToken := "", refreshToken := "" }
        scenarioLoginResp retrieveTokenErrorPfx).2 =
      .ok { accessToken := scenarioToken, tokenType := "Bearer",
            expiry := timeUnix 9999999999 } ∧
    timeUnix 0 + earlyExpiry ≤ timeUnix 9999999999 ∧
    timeUnix 0 < timeUnix 9999999999 :=
  requestAccessToken_expiry_with_reuse_margin
    { accessToken := "", refreshToken := "" } scenarioLoginResp retrieveTokenErrorPfx
    { data := { accessToken := scenarioToken, refreshToken := "r1" },
      ok := true, error := "" }
    9999999999 (timeUnix 0)
    (by decide) (by decide) (by decide) (by decide) (by decide) (by decide)
    (by decide) (by decide) (by decide)

/-- Claim C2: Every malformed access token — no dot, a single dot, a
middle segment that is not valid unpadded base64url, or a payload whose
claims do not unmarshal — makes `getExpirationTime` return the `past`
sentinel (it is a total function, so no panic is possible); `past` is
not the zero time that oauth2 would treat as non-expiring, lies before
the Unix epoch, and is already beyond the safety margin at any instant
from the epoch on. -/
theorem getExpirationTime_malformed_returns_past (s : String) (now : Int)
    (hnow : timeUnix 0 ≤ now)
    (hmal : cutDot s = none ∨
      ∃ p1, cutDot s = some p1 ∧ (cutDot p1.2 = none ∨
        ∃ p2, cutDot p1.2 = some p2 ∧ (b64DecodeString p2.1 = none ∨
          ∃ bs, b64DecodeString p2.1 = some bs ∧ jsonUnmarshalClaims bs = none))) :
    getExpirationTime s = past ∧ past ≠ 0 ∧ past < timeUnix 0 ∧
      past - earlyExpiry < now := by
  have hbig : past - earlyExpiry < now ∧ past < timeUnix 0 := by
    unfold past earlyExpiry timeUnix nsPerSec unixToInternalSec at *
    omega
  refine ⟨?_, by decide, hbig.2, hbig.1⟩
  unfold getExpirationTime
  rcases hmal with h | ⟨p1, hp1, h⟩
  · simp [h]
  rcases h with h | ⟨p2, hp2, h⟩
  · simp [hp1, h]
  rcases h with h | ⟨bs, hbs, h⟩
  · simp [hp1, hp2, h]
  · simp [hp1, hp2, hbs, h]

/-- Claim C2 witness: A dotless token at the Unix epoch. -/
theorem getExpirationTime_malformed_returns_past_witness :
    getExpirationTime "nodots" = past ∧ past ≠ 0 ∧ past < timeUnix 0 ∧
      past - earlyExpiry < timeUnix 0 :=
  getExpirationTime_malformed_returns_past "nodots" (timeUnix 0)
    (by decide) (.inl (by decide))

/-- Claim C3: A response with a status outside 2xx never yields a token:
when the body decodes into an envelope with `success:false` the error
carries the server message, otherwise it carries the HTTP status code
(`expectedNon2xxFragment` selects which of the two the claim expects). -/
theorem requestAccessToken_non2xx_error (st : TokenState) (resp : HttpResponse)
    (ep : String)
    (h1 : resp.newReqErr = none) (h2 : resp.doErr = none)
    (h3 : resp.statusCode < 200 ∨ 300 ≤ resp.statusCode) :
    isOkB (requestAccessToken st resp ep).2 = false ∧
    strContains (errTextOf (requestAccessToken st resp ep).2)
      (expectedNon2xxFragment resp) = true := by
  unfold requestAccessToken expectedNon2xxFragment
  simp only [h1, h2, if_pos h3]
  cases hq : decodeResultAny resp.body with
  | none =>
    refine ⟨rfl, ?_⟩
    have := strContains_append (ep ++ "received non-2xx status code: " ++ resp.status ++ " (")
      (toString resp.statusCode) ")"
    simpa [errTextOf] using this
  | some r =>
    by_cases hr : r.ok = false
    · simp only [hr, if_pos rfl]
      refine ⟨rfl, ?_⟩
      have := strContains_append (ep ++ "API error: ") r.error ""
      simpa [errTextOf] using this
    · simp only [hr]
      refine ⟨by simp [hr, isOkB], ?_⟩
      have := strContains_append (ep ++ "received non-2xx status code: " ++ resp.status ++ " (")
        (toString resp.statusCode) ")"
      simpa [hr, errTextOf] using this

/-- Claim C3 witness: The spec's 401 refresh rejection. -/
theorem requestAccessToken_non2xx_error_witness :
    isOkB (requestAccessToken scenarioState scenarioRefreshFailResp
      refreshTokenErrorPfx).2 = false ∧
    strContains (errTextOf (requestAccessToken scenarioState scenarioRefreshFailResp
      refreshTokenErrorPfx).2) (expectedNon2xxFragment scenarioRefreshFailResp) = true :=
  requestAccessToken_non2xx_error scenarioState scenarioRefreshFailResp
    refreshTokenErrorPfx (by decide) (by decide) (by decide)

/-- Claim C5: Frame property of `requestAccessToken`: an error return of
any kind leaves `accessToken` and `refreshToken` untouched, and when a
token is returned the new state is exactly the payload of this
response's decoded envelope, whose `success` was true — both fields from
the same response. -/
theorem requestAccessToken_state_frame (st : TokenState) (resp : HttpResponse)
    (ep : String) :
    (isOkB (requestAccessToken st resp ep).2 = false →
      (requestAccessToken st resp ep).1 = st) ∧
    (isOkB (requestAccessToken st resp ep).2 = true →
      (decodeAuthResult resp.body).map
          (fun r => (r.data.accessToken, r.data.refreshToken, r.ok)) =
        some ((requestAccessToken st resp ep).1.accessToken,
          (requestAccessToken st resp ep).1.refreshToken, true) ∧
      tokAccessOf (requestAccessToken st resp ep).2 =
        (requestAccessToken st resp ep).1.accessToken) := by
  refine ⟨requestAccessToken_error_frame st resp ep, ?_⟩
  intro hok
  unfold requestAccessToken at hok ⊢
  cases hn : resp.newReqErr with
  | some e => simp [hn, isOkB] at hok
  | none =>
    simp only [hn] at hok ⊢
    cases hd : resp.doErr with
    | some e => simp [hd, isOkB] at hok
    | none =>
      simp only [hd] at hok ⊢
      by_cases hs : resp.statusCode < 200 ∨ 300 ≤ resp.statusCode
      · simp only [if_pos hs] at hok ⊢
        cases hq : decodeResultAny resp.body with
        | none => simp [hq, isOkB] at hok
        | some r =>
          simp only [hq] at hok
          by_cases hr : r.ok = false <;> simp [hr, isOkB] at hok
      · simp only [if_neg hs] at hok ⊢
        cases hq : decodeAuthResult resp.body with
        | none => simp [hq, isOkB] at hok
        | some r =>
          simp only [hq] at hok ⊢
          by_cases hr : r.ok = false
          · simp [hr, isOkB] at hok
          · have hr' : r.ok = true := by
              cases hok2 : r.ok with
              | false => exact absurd hok2 hr
              | true => rfl
            simp [hr', tokAccessOf]

/-- Claim C5 witness: A transport failure leaves the scenario state
holding its tokens. -/
theorem requestAccessToken_state_frame_witness :
    (requestAccessToken scenarioState scenarioTransportFailResp
      refreshTokenErrorPfx).1 = scenarioState :=
  (requestAccessToken_state_frame scenarioState scenarioTransportFailResp
    refreshTokenErrorPfx).1 (by decide)

/-- Claim C7: A 2xx response whose envelope decodes with `success:false`
makes `requestAccessToken` fail with an API error carrying the server
message; no token is returned. -/
theorem requestAccessToken_success_false_api_error (st : TokenState)
    (resp : HttpResponse) (ep : String) (r : AuthResult)
    (h1 : resp.newReqErr = none) (h2 : resp.doErr = none)
    (h3 : 200 ≤ resp.statusCode) (h4 : resp.statusCode < 300)
    (h5 : decodeAuthResult resp.body = some r) (h6 : r.ok = false) :
    (requestAccessToken st resp ep).2 = .error (ep ++ "API error: " ++ r.error) ∧
    strContains (errTextOf (requestAccessToken st resp ep).2) r.error = true := by
  unfold requestAccessToken
  have hs : ¬ (resp.statusCode < 200 ∨ 300 ≤ resp.statusCode) := by omega
  simp only [h1, h2, if_neg hs, h5, h6, if_pos rfl]
  refine ⟨rfl, ?_⟩
  have := strContains_append (ep ++ "API error: ") r.error ""
  simpa [errTextOf] using this

/-- Claim C7 witness: A 200 response with a `success:false` body. -/
theorem requestAccessToken_success_false_api_error_witness :
    (requestAccessToken scenarioState scenarioApiFailResp refreshTokenErrorPfx).2 =
      .error (refreshTokenErrorPfx ++ "API error: " ++ "token expired") ∧
    strContains (errTextOf (requestAccessToken scenarioState scenarioApiFailResp
      refreshTokenErrorPfx).2) "token expired" = true :=
  requestAccessToken_success_false_api_error scenarioState scenarioApiFailResp
    refreshTokenErrorPfx { data := { accessToken := "", refreshToken := "" },
                           ok := false, error := "token expired" }
    (by decide) (by decide) (by decide) (by decide) (by decide) (by decide)

/-- Claim C8: A fully successful auth response (2xx, decodable envelope,
`success:true`) stores the payload's `refreshToken` as the new Refresh
Ticket and returns a token whose `AccessToken` is the payload's
`accessToken` and whose `TokenType` is `"Bearer"`. -/
theorem requestAccessToken_full_success_updates (st : TokenState)
    (resp : HttpResponse) (ep : String) (r : AuthResult)
    (h1 : resp.newReqErr = none) (h2 : resp.doErr = none)
    (h3 : 200 ≤ resp.statusCode) (h4 : resp.statusCode < 300)
    (h5 : decodeAuthResult resp.body = some r) (h6 : r.ok = true) :
    (requestAccessToken st resp ep).1.refreshToken = r.data.refreshToken ∧
    (requestAccessToken st resp ep).2 =
      .ok { accessToken := r.data.accessToken, tokenType := "Bearer",
            expiry := getExpirationTime r.data.accessToken } := by
  have heq := requestAccessToken_success_eq st resp ep r h1 h2 h3 h4 h5 h6
  rw [heq]
  exact ⟨rfl, rfl⟩

/-- Claim C8 witness: The spec's scenario login response: the Refresh
Ticket becomes `"r1"` and the token carries the scenario access token. -/
theorem requestAccessToken_full_success_updates_witness :
    (requestAccessToken { accessToken := "", refreshToken := "" }
      scenarioLoginResp retrieveTokenErrorPfx).1.refreshToken = "r1" ∧
    (requestAccessToken { accessToken := "", refreshToken := "" }
      scenarioLoginResp retrieveTokenErrorPfx).2 =
      .ok { accessToken := scenarioToken, tokenType := "Bearer",
            expiry := getExpirationTime scenarioToken } :=
  requestAccessToken_full_success_updates
    { accessToken := "", refreshToken := "" } scenarioLoginResp retrieveTokenErrorPfx
    { data := { accessToken := scenarioToken, refreshToken := "r1" },
      ok := true, error := "" }
    (by decide) (by decide) (by decide) (by decide) (by decide) (by decide)

/-- Shape of a `Token()` invocation whose refresh attempt fails with
error `e`: the logged error, the refresh attempt followed by exactly one
login attempt, and the login call's state and result (the failed refresh
left the state unchanged, so the login runs from the original state). -/
theorem tokenSourceToken_refresh_fail_eq (conf : Config) (st : TokenState)
    (env : TokenEnv) (e : String)
    (hc : st.accessToken ≠ "" ∧ st.refreshToken ≠ "" ∧
      env.now < getExpirationTime st.accessToken - 10 * nsPerSec)
    (hf : (requestAccessToken st env.refreshResp refreshTokenErrorPfx).2 = .error e) :
    tokenSourceToken conf st env =
      { state := (requestAccessToken st env.loginResp retrieveTokenErrorPfx).1,
        result := (requestAccessToken st env.loginResp retrieveTokenErrorPfx).2,
        attempts := [.refresh st.refreshToken st.accessToken,
                     .login conf.Email conf.Password],
        logs := [e] } := by
  have hst1 : (requestAccessToken st env.refreshResp refreshTokenErrorPfx).1 = st :=
    requestAccessToken_error_frame st env.refreshResp refreshTokenErrorPfx
      (by rw [hf]; rfl)
  unfold tokenSourceToken
  rw [if_pos hc]
  rcases hr : requestAccessToken st env.refreshResp refreshTokenErrorPfx with ⟨st1, r1⟩
  rw [hr] at hf hst1
  simp only at hf hst1
  subst hf
  rw [hst1]

/-- Claim C4 amended: When a `Token()` invocation attempts a refresh and
the refresh fails, exactly one login attempt follows in the same
invocation; the Refresh Ticket held before the failed refresh is *not*
discarded by the failure itself: it is replaced by the login response's
ticket if the login succeeds, and remains held unchanged if the login
also fails. -/
theorem token_refresh_failure_single_login (conf : Config) (st : TokenState)
    (env : TokenEnv)
    (hc : st.accessToken ≠ "" ∧ st.refreshToken ≠ "" ∧
      env.now < getExpirationTime st.accessToken - 10 * nsPerSec)
    (hf : isOkB (requestAccessToken st env.refreshResp refreshTokenErrorPfx).2 = false) :
    (tokenSourceToken conf st env).attempts =
      [.refresh st.refreshToken st.accessToken, .login conf.Email conf.Password] ∧
    (tokenSourceToken conf st env).state.refreshToken =
      (match (requestAccessToken st env.loginResp retrieveTokenErrorPfx).2 with
        | .ok _ => (requestAccessToken st env.loginResp retrieveTokenErrorPfx).1.refreshToken
        | .error _ => st.refreshToken) := by
  rcases hfe : (requestAccessToken st env.refreshResp refreshTokenErrorPfx).2 with e | tok
  · rw [tokenSourceToken_refresh_fail_eq conf st env e hc hfe]
    refine ⟨rfl, ?_⟩
    rcases hl2 : (requestAccessToken st env.loginResp retrieveTokenErrorPfx).2 with e2 | tok
    · have := requestAccessToken_error_frame st env.loginResp retrieveTokenErrorPfx
        (by rw [hl2]; rfl)
      simp [hl2, this]
    · simp [hl2]
  · rw [hfe] at hf; simp [isOkB] at hf

/-- Claim C4 counterexample: In the spec's scenario (refresh rejected with
401, login failing at the transport level) the invocation attempts the
refresh and then one login, both fail — and the Refresh Ticket `"r1"`
held before the failed refresh is still held afterwards, contradicting
the claim that it is discarded. -/
theorem token_refresh_failure_ticket_kept_counterexample :
    (tokenSourceToken scenarioConf scenarioState scenarioEnvBothFail).attempts =
      [.refresh "r1" scenarioToken, .login "user@example.com" "secret"] ∧
    (tokenSourceToken scenarioConf scenarioState scenarioEnvBothFail).logs.length = 1 ∧
    isOkB (tokenSourceToken scenarioConf scenarioState scenarioEnvBothFail).result = false ∧
    (tokenSourceToken scenarioConf scenarioState scenarioEnvBothFail).state.refreshToken
      = "r1" := by
  refine ⟨by decide, by decide, by decide, by decide⟩

/-- Claim C4 witness: The amended claim at the scenario input: one login
follows the failed refresh and, the login failing too, the ticket
`"r1"` remains stored. -/
theorem token_refresh_failure_single_login_witness :
    (tokenSourceToken scenarioConf scenarioState scenarioEnvBothFail).attempts =
      [.refresh "r1" scenarioToken, .login "user@example.com" "secret"] ∧
    (tokenSourceToken scenarioConf scenarioState scenarioEnvBothFail).state.refreshToken
      = "r1" := by
  have h := token_refresh_failure_single_login scenarioConf scenarioState
    scenarioEnvBothFail ⟨by decide, by decide, by decide⟩ (by decide)
  exact ⟨h.1, h.2⟩

/-- Claim C6: When the refresh attempt of a `Token()` invocation fails
with error `e`, that error is logged and exactly one login attempt
follows in the same invocation (one refresh and one login in total — no
further retry of any failure); if the login itself fails at the
transport level, that transport error is surfaced directly as the
result. -/
theorem token_refresh_failure_fallback (conf : Config) (st : TokenState)
    (env : TokenEnv) (e : String)
    (hc : st.accessToken ≠ "" ∧ st.refreshToken ≠ "" ∧
      env.now < getExpirationTime st.accessToken - 10 * nsPerSec)
    (hf : (requestAccessToken st env.refreshResp refreshTokenErrorPfx).2 = .error e) :
    (tokenSourceToken conf st env).logs = [e] ∧
    (tokenSourceToken conf st env).attempts.countP isLoginAttempt = 1 ∧
    (tokenSourceToken conf st env).attempts.countP isRefreshAttempt = 1 ∧
    (env.loginResp.newReqErr = none → env.loginResp.doErr ≠ none →
      (tokenSourceToken conf st env).result =
        .error (retrieveTokenErrorPfx ++ "failed to make refresh token request: " ++
          env.loginResp.doErr.getD "")) := by
  rw [tokenSourceToken_refresh_fail_eq conf st env e hc hf]
  refine ⟨rfl, ?_, ?_, ?_⟩
  · simp [List.countP_cons, isLoginAttempt]
  · simp [List.countP_cons, isRefreshAttempt]
  · intro h1 h2
    cases hd : env.loginResp.doErr with
    | none => exact absurd hd h2
    | some m =>
      unfold requestAccessToken
      simp [h1, hd]

/-- Claim C6 witness: The spec's scenario: 401-rejected refresh, then one
login that fails at the transport level and surfaces that failure. -/
theorem token_refresh_failure_fallback_witness :
    (tokenSourceToken scenarioConf scenarioState scenarioEnvBothFail).logs =
      [refreshTokenErrorPfx ++ "API error: " ++ "token expired"] ∧
    (tokenSourceToken scenarioConf scenarioState
      scenarioEnvBothFail).attempts.countP isLoginAttempt = 1 ∧
    (tokenSourceToken scenarioConf scenarioState
      scenarioEnvBothFail).attempts.countP isRefreshAttempt = 1 ∧
    (tokenSourceToken scenarioConf scenarioState scenarioEnvBothFail).result =
      .error (retrieveTokenErrorPfx ++ "failed to make refresh token request: " ++
        "dial tcp: connection refused") := by
  have h := token_refresh_failure_fallback scenarioConf scenarioState scenarioEnvBothFail
    (refreshTokenErrorPfx ++ "API error: " ++ "token expired")
    ⟨by decide, by decide, by decide⟩ (by rfl)
  refine ⟨h.1, h.2.1, h.2.2.1, ?_⟩
  have := h.2.2.2 rfl (by simp [scenarioEnvBothFail, scenarioTransportFailResp])
  simpa [scenarioEnvBothFail, scenarioTransportFailResp] using this

/-- Claim C9: A `Token()` invocation attempts a refresh exactly when the
stored access and refresh tokens are both non-empty and the access
token's claim-derived expiry minus ten seconds is still after the
current time; otherwise the invocation consists of a single direct
login. -/
theorem token_refresh_attempt_iff_condition (conf : Config) (st : TokenState)
    (env : TokenEnv) :
    ((tokenSourceToken conf st env).attempts.head? =
        some (.refresh st.refreshToken st.accessToken) ↔
      (st.accessToken ≠ "" ∧ st.refreshToken ≠ "" ∧
        env.now < getExpirationTime st.accessToken - 10 * nsPerSec)) ∧
    (¬ (st.accessToken ≠ "" ∧ st.refreshToken ≠ "" ∧
        env.now < getExpirationTime st.accessToken - 10 * nsPerSec) →
      (tokenSourceToken conf st env).attempts = [.login conf.Email conf.Password]) := by
  by_cases hc : st.accessToken ≠ "" ∧ st.refreshToken ≠ "" ∧
      env.now < getExpirationTime st.accessToken - 10 * nsPerSec
  · have hhead : (tokenSourceToken conf st env).attempts.head? =
        some (.refresh st.refreshToken st.accessToken) := by
      unfold tokenSourceToken
      rw [if_pos hc]
      rcases hr : requestAccessToken st env.refreshResp refreshTokenErrorPfx with ⟨st1, r1⟩
      cases r1 with
      | ok tok => rfl
      | error e =>
        rcases hl : requestAccessToken st1 env.loginResp retrieveTokenErrorPfx with ⟨st2, r2⟩
        rfl
    exact ⟨⟨fun _ => hc, fun _ => hhead⟩, fun h => absurd hc h⟩
  · have hatt : (tokenSourceToken conf st env).attempts =
        [.login conf.Email conf.Password] := by
      unfold tokenSourceToken
      rw [if_neg hc]
    refine ⟨⟨fun h => ?_, fun h => absurd h hc⟩, fun _ => hatt⟩
    simp [hatt] at h

/-- Claim C9 witness: With the scenario state and clock at the epoch the
refresh condition holds, and the invocation's first attempt is the
refresh carrying ticket `"r1"` and the stored bearer token. -/
theorem token_refresh_attempt_iff_condition_witness :
    (tokenSourceToken scenarioConf scenarioState scenarioEnvBothFail).attempts.head? =
      some (.refresh "r1" scenarioToken) :=
  (token_refresh_attempt_iff_condition scenarioConf scenarioState
    scenarioEnvBothFail).1.mpr ⟨by decide, by decide, by decide⟩

/-- Every successful prayer-time accessor returns the envelope's list
with each element's `GregorianDate` rewritten. -/
theorem prayerTime_list_eq (c : CityInfo) (cid : Int) (resp : PrayerHttpResponse)
    (tz : Option Int) (l : List PrayerTime) (r : PrayerTimeResult)
    (hb : resp.body = some r)
    (hAny : getPrayerTimeDaily c resp tz = .ok l ∨
      getPrayerTimeWeekly c cid resp tz = .ok l ∨
      getPrayerTimeMonthly c cid resp tz = .ok l) :
    l = r.data.map (fun pt => fixGregorianDate pt tz) := by
  rcases hAny with h | h | h <;>
  · first
    | (unfold getPrayerTimeDaily at h) | (unfold getPrayerTimeWeekly at h)
      | (unfold getPrayerTimeMonthly at h)
    cases hg : resp.getErr with
    | some e =>
      simp only [hg] at h
      exact Except.noConfusion h
    | none =>
      simp only [hg, hb] at h
      by_cases hr : r.ok = false
      · rw [if_pos hr] at h
        exact Except.noConfusion h
      · rw [if_neg hr] at h
        injection h with h2
        exact h2.symm

/-- Claim C10: Each `PrayerTime` element returned by `GetPrayerTimeDaily`,
`GetPrayerTimeWeekly` or `GetPrayerTimeMonthly` has its `GregorianDate`
rewritten to midnight — hour, minute, second and nanosecond all zero —
of its original year, month and day, in the caller's timezone, or, when
none is given, in a fixed zone of `int(GreenwichMeanTimeZone * 3600)`
seconds. -/
theorem prayerTime_gregorian_midnight (c : CityInfo) (cid : Int)
    (resp : PrayerHttpResponse) (tz : Option Int) (l : List PrayerTime)
    (r : PrayerTimeResult) (i : ℕ)
    (hb : resp.body = some r)
    (hAny : getPrayerTimeDaily c resp tz = .ok l ∨
      getPrayerTimeWeekly c cid resp tz = .ok l ∨
      getPrayerTimeMonthly c cid resp tz = .ok l)
    (hi : i < r.data.length) (hl : i < l.length) :
    l.get ⟨i, hl⟩ = fixGregorianDate (r.data.get ⟨i, hi⟩) tz ∧
    (l.get ⟨i, hl⟩).GregorianDate =
      specMidnightDate (r.data.get ⟨i, hi⟩).GregorianDate
        (specZoneOffset tz (r.data.get ⟨i, hi⟩)) := by
  have hmap := prayerTime_list_eq c cid resp tz l r hb hAny
  have h1 : l.get ⟨i, hl⟩ = fixGregorianDate (r.data.get ⟨i, hi⟩) tz := by
    have : l.get ⟨i, hl⟩ = l[i] := rfl
    rw [this]
    subst hmap
    simp
  refine ⟨h1, ?_⟩
  rw [h1]
  unfold fixGregorianDate specMidnightDate specZoneOffset
  cases tz <;> rfl

/-- Claim C10 witness: The sample element, with no caller timezone:
midnight of 2024-03-15 in the fixed zone GMT+3 (10800 seconds). -/
theorem prayerTime_gregorian_midnight_witness :
    (fixGregorianDate samplePrayerTime none).GregorianDate =
      { year := 2024, month := 3, day := 15, hour := 0, minute := 0,
        second := 0, nsec := 0, offsetSec := 10800 } := by
  have h := prayerTime_gregorian_midnight sampleCity 0 samplePrayerResp none
    [fixGregorianDate samplePrayerTime none]
    { data := [samplePrayerTime], ok := true, error := "" } 0
    rfl (.inl rfl) (by decide) (by decide)
  have h2 : (fixGregorianDate samplePrayerTime none).GregorianDate =
      specMidnightDate samplePrayerTime.GregorianDate
        (specZoneOffset none samplePrayerTime) := h.2
  rw [h2]
  unfold specMidnightDate specZoneOffset samplePrayerTime
  simp only [Option.getD]
  norm_num [ratTruncToInt]

end Diyanet
